import Mathlib

/-!
Verification of the iframe-rpc bridge core.

This file gives a shallow embedding of the two bridge implementations found in
the repository and proves the frozen claims about them:

* `IframeRpc` — the `ParentBridge` / `ChildBridge` pair
  (src/parent-bridge.ts, the child bridge source, src/types/errors.ts,
  src/types/messages.ts): connection lifecycle, correlation map, handshake,
  request routing, trust gate, destroy.
* `IframeRpc.Retry` — the second bridge core with retry support
  (the `createBridge` source and its `config.ts`): `callMethod`,
  `calculateRetryDelay`, `DEFAULT_RETRY_OPTIONS`.
* `IframeRpc.Correlation` — `generateCorrelationId` from
  src/utils/correlation.ts, including its module-scoped shared counter.

Stateful TypeScript is embedded as explicit state passing: each method of the
bridge classes becomes a function `State → args → State × List Effect`, where
an `Effect` records a `postMessage` send, a settlement (resolve/reject) of a
stored promise, or a handler invocation.  Timers are carried as a list of
armed timer ids; `setTimeout` arms a fresh id, `clearTimeout` removes it, and
the firing of a timer is an explicit event that is a no-op whenever the timer
has been cleared (mirroring JS timer semantics).
-/

namespace IframeRpc

/-! ## Error model — src/types/errors.ts -/

/-- The `BridgeErrorCode` enumeration (src/types/errors.ts lines 10-31). -/
inductive ErrCode
  | timeout
  | methodNotFound
  | handlerError
  | invalidOrigin
  | notConnected
  | handshakeFailed
  | invalidMessage
  | validationError
  | destroyed
  | unknown
deriving DecidableEq, Repr

/-- The string value of each error code, exactly as in `BridgeErrorCode`. -/
def ErrCode.codeStr : ErrCode → String
  | .timeout => "BRIDGE_TIMEOUT"
  | .methodNotFound => "BRIDGE_METHOD_NOT_FOUND"
  | .handlerError => "BRIDGE_HANDLER_ERROR"
  | .invalidOrigin => "BRIDGE_INVALID_ORIGIN"
  | .notConnected => "BRIDGE_NOT_CONNECTED"
  | .handshakeFailed => "BRIDGE_HANDSHAKE_FAILED"
  | .invalidMessage => "BRIDGE_INVALID_MESSAGE"
  | .validationError => "BRIDGE_VALIDATION_ERROR"
  | .destroyed => "BRIDGE_DESTROYED"
  | .unknown => "BRIDGE_UNKNOWN"

/-- `Object.values(BridgeErrorCode)` in declaration order. -/
def allErrCodes : List ErrCode :=
  [.timeout, .methodNotFound, .handlerError, .invalidOrigin, .notConnected,
   .handshakeFailed, .invalidMessage, .validationError, .destroyed, .unknown]

/-- The serialized error shape `{code, message, details?}` carried in
`Response.error` on the wire.  Details are kept opaque as a string. -/
structure WireErr where
  code : String
  message : String
  details : Option String
deriving DecidableEq, Repr

/-- The `BridgeError` class: a structured error with `code`, `message` and
optional `details` (src/types/errors.ts lines 46-57).  The prototype-chain
`cause` field plays no role in serialization and is omitted. -/
structure BridgeError where
  code : ErrCode
  message : String
  details : Option String
deriving DecidableEq, Repr

/-- `BridgeError.toJSON` (src/types/errors.ts lines 132-138). -/
def BridgeError.toJSON (e : BridgeError) : WireErr :=
  ⟨e.code.codeStr, e.message, e.details⟩

/-- `BridgeError.timeout(method, timeoutMs)` (src/types/errors.ts lines 62-67). -/
def BridgeError.timeoutErr (method : String) (timeoutMs : Nat) : BridgeError :=
  ⟨.timeout, s!"Request to '{method}' timed out after {timeoutMs}ms", none⟩

/-- `BridgeError.methodNotFound(method)` (src/types/errors.ts lines 72-74). -/
def BridgeError.methodNotFoundErr (method : String) : BridgeError :=
  ⟨.methodNotFound, s!"Method '{method}' not found", none⟩

/-- `BridgeError.handlerError(method, error)` (src/types/errors.ts lines
119-127); `cause` carries only the thrown message here. -/
def BridgeError.handlerErrorErr (method : String) (cause : String) : BridgeError :=
  ⟨.handlerError, s!"Handler for '{method}' threw an error: {cause}", none⟩

/-- `BridgeError.destroyed()` (src/types/errors.ts lines 98-103). -/
def BridgeError.destroyedErr : BridgeError :=
  ⟨.destroyed, "Bridge has been destroyed and cannot be used.", none⟩

/-- `BridgeError.notConnected()` (src/types/errors.ts lines 88-93). -/
def BridgeError.notConnectedErr : BridgeError :=
  ⟨.notConnected, "Bridge is not connected. Call connect() first.", none⟩

/-- `mapErrorCode` of the bridges: a wire code string is accepted when it is
one of the `BridgeErrorCode` values, anything else becomes `UNKNOWN`
(src/parent-bridge.ts lines 450-456). -/
def mapErrorCode (code : String) : ErrCode :=
  match allErrCodes.find? (fun c => c.codeStr == code) with
  | some c => c
  | none => .unknown

/-! ## Wire messages — src/types/messages.ts -/

/-- The tagged union of wire messages.  `other` stands for any inbound
payload that none of the type guards `isRequest` / `isResponse` /
`isHandshakeRequest` / `isHandshakeAck` recognizes. -/
inductive WireMsg
  | request (id method payload : String)
  | responseOk (id requestId data : String)
  | responseErr (id requestId : String) (error : WireErr)
  | handshakeReq (id : String) (methods : Option (List String))
  | handshakeAck (id requestId : String) (methods : List String)
  | other
deriving DecidableEq, Repr

/-- Observable effects of a bridge step: a `postMessage` send, the settlement
of a stored pending promise, or the invocation of a local handler. -/
inductive Outcome
  | resolved (data : String)
  | rejected (err : BridgeError)
deriving DecidableEq, Repr

inductive Effect
  | send (m : WireMsg)
  | settle (id : String) (o : Outcome)
  | invoke (method : String)
deriving DecidableEq, Repr

/-! ## The pending map — src/utils/timeout.ts `PendingRequest` plus the JS
`Map` the bridges keep it in.  A JS `Map` has unique keys and preserves
insertion order; it is embedded as an association list with the three
operations the bridges use. -/

/-- One `PendingRequest` record: the armed timer's id, the method name, the
effective call timeout captured by the timer closure, and `createdAt`. -/
structure PendingEntry where
  timerId : Nat
  method : String
  timeoutMs : Nat
  createdAt : Nat
deriving DecidableEq, Repr

abbrev PendingMap := List (String × PendingEntry)

/-- `Map.get` — first (unique) entry with the key. -/
def lookupPending : PendingMap → String → Option PendingEntry
  | [], _ => none
  | kv :: rest, id => if kv.1 = id then some kv.2 else lookupPending rest id

/-- `Map.delete`. -/
def deletePending (m : PendingMap) (id : String) : PendingMap :=
  m.filter (fun kv => kv.1 ≠ id)

/-- `Map.set` — replaces in place when the key exists, appends otherwise. -/
def setPending : PendingMap → String → PendingEntry → PendingMap
  | [], id, e => [(id, e)]
  | kv :: rest, id, e => if kv.1 = id then (id, e) :: rest else kv :: setPending rest id e

/-- The keys of the pending map. -/
def pendingKeys (m : PendingMap) : List String := m.map Prod.fst

/-! ## Connection state and trust gate -/

/-- The `ConnectionState` union. -/
inductive ConnState
  | disconnected
  | connecting
  | connected
  | destroyed
deriving DecidableEq, Repr

/-- A local method handler: payload to result, or a thrown/rejected cause.
Sync and async handlers are normalized to this one shape (`await handler(..)`). -/
abbrev Handler := String → Except String String

abbrev Handlers := List (String × Handler)

/-- Handler lookup `this.handlers[method]`. -/
def findHandler : Handlers → String → Option Handler
  | [], _ => none
  | kv :: rest, method => if kv.1 = method then some kv.2 else findHandler rest method

/-- `isValidOrigin` of both bridges (src/parent-bridge.ts lines 531-533):
a wildcard entry disables checking. -/
def isValidOrigin (allowed : List String) (origin : String) : Bool :=
  allowed.contains "*" || allowed.contains origin

/-- An inbound `MessageEvent`: sender origin, sender window (as an opaque
numeric identity), and the already-classified payload. -/
structure InEvent where
  origin : String
  source : Nat
  data : WireMsg
deriving DecidableEq, Repr

/-! ## ParentBridge state — src/parent-bridge.ts lines 66-157 -/

/-- The mutable fields of a `ParentBridge` instance, plus the set of timers
currently armed on its behalf (`armedTimers`) and a fresh-timer-id source
(`nextTimerId`) standing in for `setTimeout`'s returned handles.
`handshakeResolve` records whether an `attemptHandshake` promise is waiting;
`handshakeTimer` is the id of that attempt's timeout timer. -/
structure ParentState where
  pending : PendingMap
  state : ConnState
  targetWindow : Option Nat
  armedTimers : List Nat
  remoteMethods : List String
  handshakeResolve : Bool
  handshakeTimer : Option Nat
  pendingHandshakeId : Option String
  nextTimerId : Nat
  allowedOrigins : List String
  handlers : Handlers
  cfgTarget : Nat
  defaultTimeout : Nat

/-- The immediate-rejection-or-registration outcome of `call()`. -/
inductive CallResult
  | rejectedNotConnected
  | registered (id : String)
deriving DecidableEq, Repr

/-- `ParentBridge.call` (src/parent-bridge.ts lines 299-340): when not
connected, reject `NOT_CONNECTED` at once without sending; otherwise arm a
timeout, store the pending request under the minted correlation id, and post
the request.  The minted id and the current time are passed in. -/
def parentCall (s : ParentState) (id : String) (method : String) (payload : String)
    (timeoutOverride : Option Nat) (now : Nat) : ParentState × List Effect × CallResult :=
  if s.state ≠ ConnState.connected then
    (s, [], .rejectedNotConnected)
  else
    let callTimeout := timeoutOverride.getD s.defaultTimeout
    let timerId := s.nextTimerId
    ({ s with
        pending := setPending s.pending id ⟨timerId, method, callTimeout, now⟩,
        armedTimers := timerId :: s.armedTimers,
        nextTimerId := s.nextTimerId + 1 },
     [Effect.send (WireMsg.request id method payload)],
     .registered id)

/-- The `setTimeout` callback armed by `call` (src/parent-bridge.ts lines
322-325): delete the entry and reject with `TIMEOUT`.  The callback can only
run while its timer is armed, and the timer is armed exactly while the entry
is in the map (every removal also clears the timer), so firing for an absent
id is a dead branch modelled as a no-op. -/
def parentTimerFire (s : ParentState) (id : String) : ParentState × List Effect :=
  match lookupPending s.pending id with
  | none => (s, [])
  | some e =>
      ({ s with
          pending := deletePending s.pending id,
          armedTimers := s.armedTimers.filter (fun t => t ≠ e.timerId) },
       [Effect.settle id (Outcome.rejected (BridgeError.timeoutErr e.method e.timeoutMs))])

/-- Rematerialization of a wire error on the caller side
(src/parent-bridge.ts lines 437-443). -/
def rematerializeError (w : WireErr) : BridgeError :=
  ⟨mapErrorCode w.code, w.message, w.details⟩

/-- `ParentBridge.handleResponse` (src/parent-bridge.ts lines 410-445): look
up the pending entry by `requestId`; if absent the response is a logged
no-op; otherwise clear the timer, delete the entry, and resolve or reject. -/
def parentHandleResponse (s : ParentState) (m : WireMsg) : ParentState × List Effect :=
  match m with
  | WireMsg.responseOk _ requestId data =>
      (match lookupPending s.pending requestId with
       | none => (s, [])
       | some e =>
          ({ s with
              pending := deletePending s.pending requestId,
              armedTimers := s.armedTimers.filter (fun t => t ≠ e.timerId) },
           [Effect.settle requestId (Outcome.resolved data)]))
  | WireMsg.responseErr _ requestId w =>
      (match lookupPending s.pending requestId with
       | none => (s, [])
       | some e =>
          ({ s with
              pending := deletePending s.pending requestId,
              armedTimers := s.armedTimers.filter (fun t => t ≠ e.timerId) },
           [Effect.settle requestId (Outcome.rejected (rematerializeError w))]))
  | _ => (s, [])

/-- `ParentBridge.destroy` (src/parent-bridge.ts lines 575-598): a second
call is a no-op; otherwise clear every pending call's timer, reject every
pending call with `DESTROYED`, empty the map, drop window/handshake
references, and end in `destroyed`.  Note the code never clears the
`attemptHandshake` timeout timer (`handshakeTimer`): only the timers stored
in the pending map are cleared. -/
def parentDestroy (s : ParentState) : ParentState × List Effect :=
  if s.state = ConnState.destroyed then (s, [])
  else
    let cleared := s.pending.map (fun kv => kv.2.timerId)
    ({ s with
        pending := [],
        armedTimers := s.armedTimers.filter (fun t => ¬ cleared.contains t),
        targetWindow := none,
        handshakeResolve := false,
        pendingHandshakeId := none,
        state := ConnState.destroyed },
     s.pending.map (fun kv => Effect.settle kv.1 (Outcome.rejected BridgeError.destroyedErr)))

/-- What `connect()` does before any awaiting (src/parent-bridge.ts lines
183-216), per state. -/
inductive ConnectOutcome
  | rejectedDestroyed
  | alreadyConnected
  | rejectedInProgress
  | startedHandshake
deriving DecidableEq, Repr

/-- `ParentBridge.connect` synchronous prefix: `destroyed` rejects with
`DESTROYED`; `connected` is a benign no-op resolve; `connecting` rejects with
`HANDSHAKE_FAILED` "Connection already in progress"; `disconnected` flips to
`connecting`, records the target window and starts the handshake. -/
def parentConnect (s : ParentState) : ParentState × List Effect × ConnectOutcome :=
  if s.state = ConnState.destroyed then (s, [], .rejectedDestroyed)
  else if s.state = ConnState.connected then (s, [], .alreadyConnected)
  else if s.state = ConnState.connecting then (s, [], .rejectedInProgress)
  else
    ({ s with state := ConnState.connecting, targetWindow := some s.cfgTarget },
     [], .startedHandshake)

/-- The `BridgeError` thrown by `connect()` while `connecting`. -/
def connectInProgressErr : BridgeError :=
  ⟨.handshakeFailed, "Connection already in progress", none⟩

/-- `ParentBridge.sendHandshake` (src/parent-bridge.ts lines 272-287): mint a
fresh handshake id, record it as the outstanding attempt, and post a
`HandshakeRequest` advertising the local method names. -/
def sendHandshake (s : ParentState) (id : String) : ParentState × List Effect :=
  ({ s with pendingHandshakeId := some id },
   [Effect.send (WireMsg.handshakeReq id (some (s.handlers.map Prod.fst)))])

/-- `ParentBridge.attemptHandshake` entry (src/parent-bridge.ts lines
248-266): store a resolve function, arm the handshake timeout timer, and send
the handshake request. -/
def attemptHandshakeStart (s : ParentState) (id : String) : ParentState × List Effect :=
  let timerId := s.nextTimerId
  sendHandshake
    { s with
        handshakeResolve := true,
        handshakeTimer := some timerId,
        armedTimers := timerId :: s.armedTimers,
        nextTimerId := s.nextTimerId + 1 }
    id

/-- `ParentBridge.handleHandshakeAck` (src/parent-bridge.ts lines 386-405):
an ack whose `requestId` differs from the outstanding handshake id is ignored
outright; a matching ack records the counterpart's advertised methods, clears
the outstanding id, and — when an attempt is waiting — clears the attempt
timer and resolves it (the returned flag). -/
def parentHandleHandshakeAck (s : ParentState) (requestId : String)
    (methods : List String) : ParentState × Bool :=
  if some requestId ≠ s.pendingHandshakeId then (s, false)
  else
    let s1 := { s with remoteMethods := methods, pendingHandshakeId := none }
    if s1.handshakeResolve then
      ({ s1 with
          handshakeResolve := false,
          armedTimers := match s1.handshakeTimer with
            | some t => s1.armedTimers.filter (fun x => x ≠ t)
            | none => s1.armedTimers,
          handshakeTimer := none },
       true)
    else (s1, false)

/-- The tail of `connect()` once `performHandshake` has resolved
(src/parent-bridge.ts line 208). -/
def parentConnectFinish (s : ParentState) : ParentState :=
  { s with state := ConnState.connected }

/-! ## Request router — shared by ParentBridge.handleRequest
(src/parent-bridge.ts lines 461-479) and ChildBridge.handleRequest; both
bodies are identical. -/

/-- `sendSuccessResponse` message shape; `newId` models the
`generateCorrelationId()` call minting the response's own id. -/
def mkSuccessResponse (newId requestId data : String) : WireMsg :=
  WireMsg.responseOk newId requestId data

/-- `sendErrorResponse` message shape: the error travels as
`error.toJSON()`. -/
def mkErrorResponse (newId requestId : String) (e : BridgeError) : WireMsg :=
  WireMsg.responseErr newId requestId e.toJSON

/-- `handleRequest`: no handler registered sends `METHOD_NOT_FOUND`; a
completing handler sends a success response; a throwing/rejecting handler
sends `HANDLER_ERROR` — every path produces exactly one response and the
exception never escapes. -/
def bridgeHandleRequest (handlers : Handlers) (reqId method payload newId : String) :
    List Effect :=
  match findHandler handlers method with
  | none =>
      [Effect.send (mkErrorResponse newId reqId (BridgeError.methodNotFoundErr method))]
  | some h =>
      match h payload with
      | Except.ok result =>
          [Effect.invoke method, Effect.send (mkSuccessResponse newId reqId result)]
      | Except.error cause =>
          [Effect.invoke method,
           Effect.send (mkErrorResponse newId reqId (BridgeError.handlerErrorErr method cause))]

/-- `ParentBridge.handleMessage` (src/parent-bridge.ts lines 345-381): drop
anything from an origin outside the allow-set, drop anything whose source is
not the recorded target window, then dispatch by message kind. -/
def parentHandleMessage (s : ParentState) (ev : InEvent) (newId : String) :
    ParentState × List Effect :=
  if ¬ isValidOrigin s.allowedOrigins ev.origin then (s, [])
  else if some ev.source ≠ s.targetWindow then (s, [])
  else
    match ev.data with
    | WireMsg.handshakeAck _ requestId methods =>
        ((parentHandleHandshakeAck s requestId methods).1, [])
    | WireMsg.responseOk _ _ _ => parentHandleResponse s ev.data
    | WireMsg.responseErr _ _ _ => parentHandleResponse s ev.data
    | WireMsg.request id method payload =>
        (s, bridgeHandleRequest s.handlers id method payload newId)
    | _ => (s, [])

/-! ## ChildBridge — the responder role source file -/

/-- The mutable fields of a `ChildBridge` instance (child bridge source,
lines 66-137), with the same timer bookkeeping as the parent. -/
structure ChildState where
  pending : PendingMap
  state : ConnState
  parentOrigin : Option String
  armedTimers : List Nat
  parentMethods : List String
  nextTimerId : Nat
  allowedOrigins : List String
  handlers : Handlers
  parentWindow : Nat
  defaultTimeout : Nat

/-- `ChildBridge.handleHandshakeRequest` (child bridge lines 200-228):
record the sender's origin, record its advertised methods when present, post
a `HandshakeAck` referencing the request's id, and transition to
`connected` — at any time, even when already connected. -/
def childHandleHandshakeRequest (s : ChildState) (reqId : String)
    (methods : Option (List String)) (origin : String) (newId : String) :
    ChildState × List Effect :=
  let s1 := { s with
      parentOrigin := some origin,
      parentMethods := match methods with
        | some ms => ms
        | none => s.parentMethods }
  ({ s1 with state := ConnState.connected },
   [Effect.send (WireMsg.handshakeAck newId reqId (s1.handlers.map Prod.fst))])

/-- `ChildBridge.handleResponse` (child bridge lines 260-294) — same logic
as the parent's. -/
def childHandleResponse (s : ChildState) (m : WireMsg) : ChildState × List Effect :=
  match m with
  | WireMsg.responseOk _ requestId data =>
      (match lookupPending s.pending requestId with
       | none => (s, [])
       | some e =>
          ({ s with
              pending := deletePending s.pending requestId,
              armedTimers := s.armedTimers.filter (fun t => t ≠ e.timerId) },
           [Effect.settle requestId (Outcome.resolved data)]))
  | WireMsg.responseErr _ requestId w =>
      (match lookupPending s.pending requestId with
       | none => (s, [])
       | some e =>
          ({ s with
              pending := deletePending s.pending requestId,
              armedTimers := s.armedTimers.filter (fun t => t ≠ e.timerId) },
           [Effect.settle requestId (Outcome.rejected (rematerializeError w))]))
  | _ => (s, [])

/-- `ChildBridge.handleMessage` (child bridge lines 150-195): drop on an
origin outside the allow-set; drop when the source window is not
`window.parent`; always accept a `HandshakeRequest`; drop every other
message kind unless `connected`; then route requests to the handler table
and responses to the correlation map. -/
def childHandleMessage (s : ChildState) (ev : InEvent) (newId : String) :
    ChildState × List Effect :=
  if ¬ isValidOrigin s.allowedOrigins ev.origin then (s, [])
  else if ev.source ≠ s.parentWindow then (s, [])
  else
    match ev.data with
    | WireMsg.handshakeReq id methods =>
        childHandleHandshakeRequest s id methods ev.origin newId
    | d =>
        if s.state ≠ ConnState.connected then (s, [])
        else
          match d with
          | WireMsg.request id method payload =>
              (s, bridgeHandleRequest s.handlers id method payload newId)
          | WireMsg.responseOk _ _ _ => childHandleResponse s d
          | WireMsg.responseErr _ _ _ => childHandleResponse s d
          | _ => (s, [])

/-- `ChildBridge.destroy` (child bridge lines 445-466): same drain as the
parent, with the parent-origin reference cleared. -/
def childDestroy (s : ChildState) : ChildState × List Effect :=
  if s.state = ConnState.destroyed then (s, [])
  else
    let cleared := s.pending.map (fun kv => kv.2.timerId)
    ({ s with
        pending := [],
        armedTimers := s.armedTimers.filter (fun t => ¬ cleared.contains t),
        parentOrigin := none,
        state := ConnState.destroyed },
     s.pending.map (fun kv => Effect.settle kv.1 (Outcome.rejected BridgeError.destroyedErr)))

/-- `ChildBridge.call` (child bridge lines 378-419) — same logic as the
parent's `call`. -/
def childCall (s : ChildState) (id : String) (method : String) (payload : String)
    (timeoutOverride : Option Nat) (now : Nat) : ChildState × List Effect × CallResult :=
  if s.state ≠ ConnState.connected then
    (s, [], .rejectedNotConnected)
  else
    let callTimeout := timeoutOverride.getD s.defaultTimeout
    let timerId := s.nextTimerId
    ({ s with
        pending := setPending s.pending id ⟨timerId, method, callTimeout, now⟩,
        armedTimers := timerId :: s.armedTimers,
        nextTimerId := s.nextTimerId + 1 },
     [Effect.send (WireMsg.request id method payload)],
     .registered id)

/-! ## Event traces over a ParentBridge — the settle-exactly-once argument -/

/-- The events that can touch the parent's pending map: an inbound response,
the firing of a call's timeout timer, a new `call()` invocation, and
`destroy()`. -/
inductive BridgeEv
  | response (m : WireMsg)
  | timerFire (id : String)
  | callInvoke (id method payload : String) (timeoutOverride : Option Nat) (now : Nat)
  | destroy
deriving DecidableEq, Repr

/-- One event step of the parent bridge. -/
def stepEv (s : ParentState) : BridgeEv → ParentState × List Effect
  | .response m => parentHandleResponse s m
  | .timerFire id => parentTimerFire s id
  | .callInvoke id method payload t now =>
      ((parentCall s id method payload t now).1, (parentCall s id method payload t now).2.1)
  | .destroy => parentDestroy s

/-- Run a list of events, accumulating effects. -/
def runEvs (s : ParentState) : List BridgeEv → ParentState × List Effect
  | [] => (s, [])
  | e :: evs =>
      ((runEvs (stepEv s e).1 evs).1, (stepEv s e).2 ++ (runEvs (stepEv s e).1 evs).2)

/-- How many effects settle the promise stored under `id`. -/
def settlesFor (id : String) (effs : List Effect) : Nat :=
  (effs.filter (fun e => match e with
    | Effect.settle i _ => i = id
    | _ => false)).length

/-- Whether an event is one of the three paths that can settle the pending
call `id`: a response with matching `requestId`, the firing of its timeout,
or `destroy()`. -/
def targetsId (id : String) : BridgeEv → Bool
  | .response (WireMsg.responseOk _ r _) => r = id
  | .response (WireMsg.responseErr _ r _) => r = id
  | .timerFire i => i = id
  | .destroy => true
  | _ => false

/-- Whether an event registers a (new) pending call under `id`.  Correlation
ids are never reused (see `IframeRpc.Correlation`), so no trace re-registers
a live id. -/
def registersId (id : String) : BridgeEv → Bool
  | .callInvoke i _ _ _ _ => i = id
  | _ => false

/-- The reachable-state invariant the settle-once argument needs: pending
keys are unique (JS `Map`), and a destroyed bridge has an empty map. -/
def wfParent (s : ParentState) : Prop :=
  (pendingKeys s.pending).Nodup ∧ (s.state = ConnState.destroyed → s.pending = [])

instance (s : ParentState) : Decidable (wfParent s) := by
  unfold wfParent; infer_instance

/-- The `requestId` a response message correlates on, when it is a response. -/
def responseReqId : WireMsg → Option String
  | WireMsg.responseOk _ r _ => some r
  | WireMsg.responseErr _ r _ => some r
  | _ => none

/-- The number of `postMessage` sends among a step's effects. -/
def sendsIn (effs : List Effect) : Nat :=
  (effs.filter (fun e => match e with
    | Effect.send _ => true
    | _ => false)).length

/-- The reachable-state invariant for the child bridge. -/
def wfChild (c : ChildState) : Prop :=
  (pendingKeys c.pending).Nodup ∧ (c.state = ConnState.destroyed → c.pending = [])

instance (c : ChildState) : Decidable (wfChild c) := by
  unfold wfChild; infer_instance

/-! ## Concrete states used by witnesses and counterexamples -/

/-- A freshly constructed parent bridge (constructor state). -/
def initialParent : ParentState :=
  { pending := []
    state := ConnState.disconnected
    targetWindow := none
    armedTimers := []
    remoteMethods := []
    handshakeResolve := false
    handshakeTimer := none
    pendingHandshakeId := none
    nextTimerId := 0
    allowedOrigins := ["https://child.example.com"]
    handlers := []
    cfgTarget := 7
    defaultTimeout := 30000 }

/-- A connected parent bridge with one pending call `"a"` (timer 1 armed). -/
def exampleParent : ParentState :=
  { initialParent with
      state := ConnState.connected
      targetWindow := some 7
      pending := [("a", ⟨1, "m", 5, 0⟩)]
      armedTimers := [1]
      nextTimerId := 2 }

/-- A parent bridge captured mid-`connect()`: `connect()` has flipped the
state to `connecting` and `attemptHandshake` has armed the handshake timeout
timer (timer id 0) and posted the handshake request `"hs1"`. -/
def connectingParent : ParentState :=
  (attemptHandshakeStart (parentConnect initialParent).1 "hs1").1

/-- A connected child bridge. -/
def exampleChild : ChildState :=
  { pending := []
    state := ConnState.connected
    parentOrigin := some "https://parent.example.com"
    armedTimers := []
    parentMethods := []
    nextTimerId := 0
    allowedOrigins := ["https://parent.example.com"]
    handlers := []
    parentWindow := 3
    defaultTimeout := 30000 }

/-- A child bridge that has not yet received any handshake. -/
def disconnectedChild : ChildState :=
  { exampleChild with state := ConnState.disconnected, parentOrigin := none }

/-- A concrete handler table: a completing handler and a throwing one. -/
def exampleHandlers : Handlers :=
  [("echo", fun p => Except.ok p), ("boom", fun _ => Except.error "kaboom")]

end IframeRpc

/-! ## The second bridge core (`createBridge`) — retry with backoff -/

namespace IframeRpc.Retry

/-- Errors of the second implementation: `RpcTimeoutError` (thrown by
`executeCall`'s timer) and the generic `RpcError` with message and optional
code.  The default retry predicate distinguishes exactly these. -/
inductive RpcErr
  | timeout (method : String) (ms : Nat)
  | rpc (message : String) (code : Option String)
deriving DecidableEq, Repr

/-- `new RpcError('Bridge has been destroyed', 'DESTROYED')` (createBridge,
`callMethod` lines 242 and 280). -/
def destroyedErr : RpcErr := RpcErr.rpc "Bridge has been destroyed" (some "DESTROYED")

/-- `DEFAULT_RETRY_OPTIONS.isRetryable` (config.ts line 43):
`error instanceof RpcTimeoutError`. -/
def defaultIsRetryable : RpcErr → Bool
  | RpcErr.timeout _ _ => true
  | _ => false

/-- `DEFAULT_RETRY_OPTIONS` numeric fields (config.ts lines 38-44). -/
def DEFAULT_MAX_RETRIES : Int := 0

def DEFAULT_RETRY_DELAY : Nat := 1000

def DEFAULT_RETRY_BACKOFF : Nat := 2

def DEFAULT_MAX_RETRY_DELAY : Nat := 30000

/-- The observables of one `callMethod` invocation: the final settlement,
how many request messages `executeCall` sent (one per attempt), and the
backoff delays slept between attempts, in order. -/
structure CallRun where
  result : Except RpcErr String
  sends : Nat
  delays : List Nat
deriving Repr

/-- `calculateRetryDelay` (createBridge lines 231-235):
`min(retryDelay * retryBackoff ^ attempt, maxRetryDelay)`. -/
def calculateRetryDelay (retryDelay retryBackoff maxRetryDelay : Nat) (attempt : Nat) : Nat :=
  min (retryDelay * retryBackoff ^ attempt) maxRetryDelay

/-- The `for attempt = 0..maxRetries` loop of `callMethod` (createBridge
lines 253-287).  `outcome k` is attempt `k`'s `executeCall` settlement (each
attempt sends exactly one request message); `remaining` counts the attempts
still allowed after this one (`maxRetries - attempt`); `destroyedDuringWait k`
tells whether the bridge was destroyed while sleeping after attempt `k`. -/
def retryLoop (outcome : Nat → Except RpcErr String) (isRetryable : RpcErr → Bool)
    (retryDelay retryBackoff maxRetryDelay : Nat) (destroyedDuringWait : Nat → Bool) :
    Nat → Nat → CallRun
  | attempt, remaining =>
    match outcome attempt with
    | Except.ok v => ⟨Except.ok v, 1, []⟩
    | Except.error e =>
      match remaining with
      | 0 => ⟨Except.error e, 1, []⟩
      | r + 1 =>
        if isRetryable e then
          let d := calculateRetryDelay retryDelay retryBackoff maxRetryDelay attempt
          if destroyedDuringWait attempt then
            ⟨Except.error destroyedErr, 1, [d]⟩
          else
            let rest := retryLoop outcome isRetryable retryDelay retryBackoff maxRetryDelay
                destroyedDuringWait (attempt + 1) r
            ⟨rest.result, rest.sends + 1, d :: rest.delays⟩
        else ⟨Except.error e, 1, []⟩

/-- `callMethod` (createBridge lines 237-288): reject `DESTROYED` when the
bridge is destroyed; with `maxRetries <= 0` execute exactly one attempt;
otherwise run the retry loop over attempts `0 .. maxRetries`. -/
def callMethod (isDestroyed : Bool) (maxRetries : Int)
    (retryDelay retryBackoff maxRetryDelay : Nat)
    (isRetryable : RpcErr → Bool) (destroyedDuringWait : Nat → Bool)
    (outcome : Nat → Except RpcErr String) : CallRun :=
  if isDestroyed then ⟨Except.error destroyedErr, 0, []⟩
  else if maxRetries ≤ 0 then
    match outcome 0 with
    | Except.ok v => ⟨Except.ok v, 1, []⟩
    | Except.error e => ⟨Except.error e, 1, []⟩
  else
    retryLoop outcome isRetryable retryDelay retryBackoff maxRetryDelay destroyedDuringWait
      0 maxRetries.toNat

end IframeRpc.Retry

/-! ## Correlation id generation — src/utils/correlation.ts -/

namespace IframeRpc.Correlation

/-- One digit of `Number.prototype.toString(36)`: `0-9` then `a-z`. -/
def base36DigitChar (d : Nat) : Char :=
  if d < 10 then Char.ofNat (48 + d) else Char.ofNat (87 + d)

/-- Little-endian base-36 digits, with explicit fuel (`fuel ≥ n` suffices)
so the definition is structurally recursive. -/
def digits36Aux : Nat → Nat → List Nat
  | _, 0 => []
  | 0, _ + 1 => []
  | fuel + 1, n + 1 => (n + 1) % 36 :: digits36Aux fuel ((n + 1) / 36)

/-- Little-endian base-36 digits of `n` (empty for 0). -/
def digits36 (n : Nat) : List Nat := digits36Aux n n

/-- Evaluation of little-endian base-36 digits, inverse to `digits36`. -/
def fromDigits36 : List Nat → Nat
  | [] => 0
  | d :: ds => d + 36 * fromDigits36 ds

/-- `n.toString(36)` for a natural number. -/
def toBase36 (n : Nat) : String :=
  if n = 0 then "0"
  else String.mk (((digits36 n).map base36DigitChar).reverse)

/-- The shape of every minted correlation id: timestamp and counter in base
36 joined by a dash. -/
def idString (t k : Nat) : String :=
  toBase36 t ++ "-" ++ toBase36 k

/-- `generateCorrelationId` (src/utils/correlation.ts lines 18-20) as a
function of the module-scoped `counter` it closes over:
`` `${Date.now().toString(36)}-${(++counter).toString(36)}` `` together with
the new counter value.  The counter is module state shared by every bridge
instance in the realm, not an instance field. -/
def generateCorrelationId (now counter : Nat) : String × Nat :=
  (toBase36 now ++ "-" ++ toBase36 (counter + 1), counter + 1)

/-- A realm-wide sequence of mints (by any interleaving of bridge
instances, at arbitrary timestamps) threading the shared module counter. -/
def mintMany : List Nat → Nat → List String
  | [], _ => []
  | t :: ts, c =>
      (generateCorrelationId t c).1 :: mintMany ts (generateCorrelationId t c).2

end IframeRpc.Correlation

namespace IframeRpc

/-! ### Association-list lemmas for the pending map -/

theorem lookup_isSome_iff_mem (m : PendingMap) (id : String) :
    (lookupPending m id).isSome ↔ id ∈ pendingKeys m := by
  induction m with
  | nil => simp [lookupPending, pendingKeys]
  | cons kv rest ih =>
      by_cases h : kv.1 = id
      · simp [lookupPending, pendingKeys, h]
      · simp [lookupPending, pendingKeys, h, ih]
        intro he
        exact absurd he.symm h

theorem lookup_none_of_not_mem {m : PendingMap} {id : String}
    (h : id ∉ pendingKeys m) : lookupPending m id = none := by
  cases hl : lookupPending m id with
  | none => rfl
  | some e =>
      exact absurd ((lookup_isSome_iff_mem m id).mp (by simp [hl])) h

theorem lookup_isSome_of_mem {m : PendingMap} {id : String}
    (h : id ∈ pendingKeys m) : (lookupPending m id).isSome :=
  (lookup_isSome_iff_mem m id).mpr h

theorem mem_keys_delete {m : PendingMap} {id a : String} :
    a ∈ pendingKeys (deletePending m id) ↔ a ∈ pendingKeys m ∧ a ≠ id := by
  simp only [pendingKeys, deletePending, List.mem_map, List.mem_filter]
  constructor
  · rintro ⟨kv, ⟨hkv, hne⟩, rfl⟩
    exact ⟨⟨kv, hkv, rfl⟩, by simpa using hne⟩
  · rintro ⟨⟨kv, hkv, rfl⟩, hne⟩
    exact ⟨kv, ⟨hkv, by simpa using hne⟩, rfl⟩

theorem nodup_keys_delete {m : PendingMap} {id : String}
    (h : (pendingKeys m).Nodup) : (pendingKeys (deletePending m id)).Nodup := by
  induction m with
  | nil => simp [deletePending, pendingKeys]
  | cons kv rest ih =>
      simp only [pendingKeys, List.map_cons, List.nodup_cons] at h
      by_cases hk : kv.1 = id
      · simpa [deletePending, List.filter, hk] using ih h.2
      · have : deletePending (kv :: rest) id = kv :: deletePending rest id := by
          simp [deletePending, List.filter, hk]
        rw [this]
        simp only [pendingKeys, List.map_cons, List.nodup_cons]
        refine ⟨fun hmem => ?_, ih h.2⟩
        have := mem_keys_delete.mp hmem
        exact h.1 this.1


theorem mem_keys_set {m : PendingMap} {id a : String} {e : PendingEntry} :
    a ∈ pendingKeys (setPending m id e) ↔ a ∈ pendingKeys m ∨ a = id := by
  induction m with
  | nil => simp [setPending, pendingKeys, eq_comm]
  | cons kv rest ih =>
      by_cases hk : kv.1 = id
      · subst hk
        have hset : setPending (kv :: rest) kv.1 e = (kv.1, e) :: rest := by
          simp [setPending]
        rw [hset]
        simp only [pendingKeys, List.map_cons, List.mem_cons]
        tauto
      · simp only [setPending, if_neg hk, pendingKeys, List.map_cons, List.mem_cons]
        rw [show (List.map Prod.fst (setPending rest id e)) = pendingKeys (setPending rest id e) from rfl]
        rw [ih]
        simp [pendingKeys]
        tauto

theorem nodup_keys_set {m : PendingMap} {id : String} {e : PendingEntry}
    (h : (pendingKeys m).Nodup) : (pendingKeys (setPending m id e)).Nodup := by
  induction m with
  | nil => simp [setPending, pendingKeys]
  | cons kv rest ih =>
      simp only [pendingKeys, List.map_cons, List.nodup_cons] at h
      by_cases hk : kv.1 = id
      · subst hk
        have hset : setPending (kv :: rest) kv.1 e = (kv.1, e) :: rest := by
          simp [setPending]
        rw [hset]
        simp only [pendingKeys, List.map_cons, List.nodup_cons]
        exact ⟨h.1, h.2⟩
      · simp only [setPending, if_neg hk, pendingKeys, List.map_cons, List.nodup_cons]
        refine ⟨fun hmem => ?_, ih h.2⟩
        rcases mem_keys_set.mp hmem with hm | hm
        · exact h.1 hm
        · exact hk hm

/-! ### Settlement-counting lemmas -/

theorem settlesFor_nil (id : String) : settlesFor id [] = 0 := rfl

theorem settlesFor_append (id : String) (l₁ l₂ : List Effect) :
    settlesFor id (l₁ ++ l₂) = settlesFor id l₁ + settlesFor id l₂ := by
  simp [settlesFor, List.filter_append]

theorem settlesFor_settle (id i : String) (o : Outcome) :
    settlesFor id [Effect.settle i o] = if i = id then 1 else 0 := by
  by_cases h : i = id <;> simp [settlesFor, h]

theorem settlesFor_send (id : String) (m : WireMsg) :
    settlesFor id [Effect.send m] = 0 := rfl

theorem settlesFor_map_settle (id : String) (m : PendingMap) (f : String × PendingEntry → Outcome) :
    settlesFor id (m.map (fun kv => Effect.settle kv.1 (f kv))) = (pendingKeys m).count id := by
  induction m with
  | nil => rfl
  | cons kv rest ih =>
      by_cases h : kv.1 = id
      · simp [settlesFor, List.filter, h, pendingKeys, List.count_cons] at ih ⊢
        omega
      · simp [settlesFor, List.filter, h, pendingKeys, List.count_cons] at ih ⊢
        simpa [settlesFor, pendingKeys] using ih

/-! ### Structure of `handleResponse` -/

theorem handleResponse_not_response {s : ParentState} {m : WireMsg}
    (hr : responseReqId m = none) : parentHandleResponse s m = (s, []) := by
  cases m <;> simp [responseReqId] at hr <;> rfl

theorem handleResponse_no_entry {s : ParentState} {m : WireMsg} {r : String}
    (hr : responseReqId m = some r) (hmiss : lookupPending s.pending r = none) :
    parentHandleResponse s m = (s, []) := by
  cases m with
  | responseOk i rq d =>
      simp only [responseReqId, Option.some.injEq] at hr
      subst hr
      simp [parentHandleResponse, hmiss]
  | responseErr i rq w =>
      simp only [responseReqId, Option.some.injEq] at hr
      subst hr
      simp [parentHandleResponse, hmiss]
  | request i me p => simp [responseReqId] at hr
  | handshakeReq i ms => simp [responseReqId] at hr
  | handshakeAck i rq ms => simp [responseReqId] at hr
  | other => simp [responseReqId] at hr

theorem handleResponse_hit {s : ParentState} {m : WireMsg} {r : String} {e : PendingEntry}
    (hr : responseReqId m = some r) (hhit : lookupPending s.pending r = some e) :
    ∃ o, parentHandleResponse s m =
      ({ s with
          pending := deletePending s.pending r,
          armedTimers := s.armedTimers.filter (fun t => t ≠ e.timerId) },
       [Effect.settle r o]) := by
  cases m with
  | responseOk i rq d =>
      simp only [responseReqId, Option.some.injEq] at hr
      subst hr
      exact ⟨Outcome.resolved d, by simp [parentHandleResponse, hhit]⟩
  | responseErr i rq w =>
      simp only [responseReqId, Option.some.injEq] at hr
      subst hr
      exact ⟨Outcome.rejected (rematerializeError w), by simp [parentHandleResponse, hhit]⟩
  | request i me p => simp [responseReqId] at hr
  | handshakeReq i ms => simp [responseReqId] at hr
  | handshakeAck i rq ms => simp [responseReqId] at hr
  | other => simp [responseReqId] at hr

theorem targetsId_response (id : String) (m : WireMsg) :
    targetsId id (BridgeEv.response m) =
      (match responseReqId m with
       | some r => decide (r = id)
       | none => false) := by
  cases m <;> rfl

/-! ### Single-step settle facts -/

theorem step_absent {s : ParentState} {e : BridgeEv} {id : String}
    (hmem : id ∉ pendingKeys s.pending) (hreg : registersId id e = false) :
    settlesFor id (stepEv s e).2 = 0 ∧ id ∉ pendingKeys (stepEv s e).1.pending := by
  cases e with
  | response m =>
      cases hr : responseReqId m with
      | none =>
          rw [show stepEv s (BridgeEv.response m) = parentHandleResponse s m from rfl,
              handleResponse_not_response hr]
          exact ⟨rfl, hmem⟩
      | some r =>
          by_cases hrid : r = id
          · subst hrid
            rw [show stepEv s (BridgeEv.response m) = parentHandleResponse s m from rfl,
                handleResponse_no_entry hr (lookup_none_of_not_mem hmem)]
            exact ⟨rfl, hmem⟩
          · cases hl : lookupPending s.pending r with
            | none =>
                rw [show stepEv s (BridgeEv.response m) = parentHandleResponse s m from rfl,
                    handleResponse_no_entry hr hl]
                exact ⟨rfl, hmem⟩
            | some e' =>
                obtain ⟨o, heq⟩ := handleResponse_hit hr hl
                rw [show stepEv s (BridgeEv.response m) = parentHandleResponse s m from rfl, heq]
                refine ⟨by simp [settlesFor_settle, hrid], fun hc => ?_⟩
                exact hmem (mem_keys_delete.mp hc).1
  | timerFire i =>
      by_cases hi : i = id
      · subst hi
        simp only [stepEv, parentTimerFire, lookup_none_of_not_mem hmem]
        exact ⟨rfl, hmem⟩
      · cases hl : lookupPending s.pending i with
        | none =>
            simp only [stepEv, parentTimerFire, hl]
            exact ⟨rfl, hmem⟩
        | some e' =>
            simp only [stepEv, parentTimerFire, hl]
            refine ⟨by simp [settlesFor_settle, hi], fun hc => ?_⟩
            exact hmem (mem_keys_delete.mp hc).1
  | callInvoke i me p t now =>
      simp only [registersId, decide_eq_false_iff_not] at hreg
      by_cases hc : s.state = ConnState.connected
      · simp only [stepEv, parentCall, hc]
        simp only [ne_eq, not_true_eq_false, if_false]
        refine ⟨rfl, fun hmem2 => ?_⟩
        rcases mem_keys_set.mp hmem2 with h | h
        · exact hmem h
        · exact hreg h.symm
      · simp only [stepEv, parentCall]
        rw [if_pos (by simpa using hc)]
        exact ⟨rfl, hmem⟩
  | destroy =>
      by_cases hd : s.state = ConnState.destroyed
      · simp only [stepEv, parentDestroy, hd, if_true]
        exact ⟨rfl, hmem⟩
      · simp only [stepEv, parentDestroy, hd, if_false]
        constructor
        · have hcnt := settlesFor_map_settle id s.pending
            (fun _ => Outcome.rejected BridgeError.destroyedErr)
          simpa [hcnt] using List.count_eq_zero.mpr hmem
        · simp [pendingKeys]

theorem step_present {s : ParentState} {e : BridgeEv} {id : String}
    (hwf : wfParent s) (hmem : id ∈ pendingKeys s.pending) (hreg : registersId id e = false) :
    (settlesFor id (stepEv s e).2 = 1 ∧ id ∉ pendingKeys (stepEv s e).1.pending)
    ∨ (settlesFor id (stepEv s e).2 = 0 ∧ id ∈ pendingKeys (stepEv s e).1.pending
        ∧ targetsId id e = false) := by
  cases e with
  | response m =>
      cases hr : responseReqId m with
      | none =>
          rw [show stepEv s (BridgeEv.response m) = parentHandleResponse s m from rfl,
              handleResponse_not_response hr]
          exact Or.inr ⟨rfl, hmem, by rw [targetsId_response, hr]⟩
      | some r =>
          by_cases hrid : r = id
          · subst hrid
            cases hl : lookupPending s.pending r with
            | none =>
                exact absurd (lookup_isSome_of_mem hmem) (by simp [hl])
            | some e' =>
                obtain ⟨o, heq⟩ := handleResponse_hit hr hl
                rw [show stepEv s (BridgeEv.response m) = parentHandleResponse s m from rfl, heq]
                refine Or.inl ⟨by simp [settlesFor_settle], fun hc => ?_⟩
                exact (mem_keys_delete.mp hc).2 rfl
          · cases hl : lookupPending s.pending r with
            | none =>
                rw [show stepEv s (BridgeEv.response m) = parentHandleResponse s m from rfl,
                    handleResponse_no_entry hr hl]
                exact Or.inr ⟨rfl, hmem, by rw [targetsId_response, hr]; simpa using hrid⟩
            | some e' =>
                obtain ⟨o, heq⟩ := handleResponse_hit hr hl
                rw [show stepEv s (BridgeEv.response m) = parentHandleResponse s m from rfl, heq]
                refine Or.inr ⟨by simp [settlesFor_settle, hrid], ?_, ?_⟩
                · exact mem_keys_delete.mpr ⟨hmem, fun h => hrid h.symm⟩
                · rw [targetsId_response, hr]; simpa using hrid
  | timerFire i =>
      by_cases hi : i = id
      · subst hi
        cases hl : lookupPending s.pending i with
        | none => exact absurd (lookup_isSome_of_mem hmem) (by simp [hl])
        | some e' =>
            simp only [stepEv, parentTimerFire, hl]
            refine Or.inl ⟨by simp [settlesFor_settle], fun hc => ?_⟩
            exact (mem_keys_delete.mp hc).2 rfl
      · cases hl : lookupPending s.pending i with
        | none =>
            simp only [stepEv, parentTimerFire, hl]
            exact Or.inr ⟨rfl, hmem, by simpa [targetsId] using hi⟩
        | some e' =>
            simp only [stepEv, parentTimerFire, hl]
            refine Or.inr ⟨by simp [settlesFor_settle, hi], ?_, ?_⟩
            · exact mem_keys_delete.mpr ⟨hmem, fun h => hi h.symm⟩
            · simpa [targetsId] using hi
  | callInvoke i me p t now =>
      simp only [registersId, decide_eq_false_iff_not] at hreg
      by_cases hc : s.state = ConnState.connected
      · simp only [stepEv, parentCall, hc]
        simp only [ne_eq, not_true_eq_false, if_false]
        exact Or.inr ⟨rfl, mem_keys_set.mpr (Or.inl hmem), rfl⟩
      · simp only [stepEv, parentCall]
        rw [if_pos (by simpa using hc)]
        exact Or.inr ⟨rfl, hmem, rfl⟩
  | destroy =>
      have hd : s.state ≠ ConnState.destroyed := by
        intro h
        have := hwf.2 h
        rw [this] at hmem
        simp [pendingKeys] at hmem
      simp only [stepEv, parentDestroy, hd, if_false]
      refine Or.inl ⟨?_, by simp [pendingKeys]⟩
      have hcnt := settlesFor_map_settle id s.pending
        (fun _ => Outcome.rejected BridgeError.destroyedErr)
      rw [hcnt]
      exact List.count_eq_one_of_mem hwf.1 hmem

theorem step_wf {s : ParentState} (e : BridgeEv) (hwf : wfParent s) :
    wfParent (stepEv s e).1 := by
  obtain ⟨hnd, hdes⟩ := hwf
  cases e with
  | response m =>
      cases hr : responseReqId m with
      | none =>
          rw [show stepEv s (BridgeEv.response m) = parentHandleResponse s m from rfl,
              handleResponse_not_response hr]
          exact ⟨hnd, hdes⟩
      | some r =>
          cases hl : lookupPending s.pending r with
          | none =>
              rw [show stepEv s (BridgeEv.response m) = parentHandleResponse s m from rfl,
                  handleResponse_no_entry hr hl]
              exact ⟨hnd, hdes⟩
          | some e' =>
              obtain ⟨o, heq⟩ := handleResponse_hit hr hl
              rw [show stepEv s (BridgeEv.response m) = parentHandleResponse s m from rfl, heq]
              refine ⟨nodup_keys_delete hnd, fun hst => ?_⟩
              have hnil := hdes hst
              rw [hnil] at hl
              simp [lookupPending] at hl
  | timerFire i =>
      cases hl : lookupPending s.pending i with
      | none =>
          simp only [stepEv, parentTimerFire, hl]
          exact ⟨hnd, hdes⟩
      | some e' =>
          simp only [stepEv, parentTimerFire, hl]
          refine ⟨nodup_keys_delete hnd, fun hst => ?_⟩
          have hnil := hdes hst
          rw [hnil] at hl
          simp [lookupPending] at hl
  | callInvoke i me p t now =>
      by_cases hc : s.state = ConnState.connected
      · simp only [stepEv, parentCall, hc]
        simp only [ne_eq, not_true_eq_false, if_false]
        refine ⟨nodup_keys_set hnd, fun hst => ?_⟩
        simp at hst
      · simp only [stepEv, parentCall]
        rw [if_pos (by simpa using hc)]
        exact ⟨hnd, hdes⟩
  | destroy =>
      by_cases hd : s.state = ConnState.destroyed
      · simp only [stepEv, parentDestroy, hd, if_true]
        exact ⟨hnd, hdes⟩
      · simp only [stepEv, parentDestroy, hd, if_false]
        exact ⟨by simp [pendingKeys], fun _ => rfl⟩

/-! ### Trace-level settle facts -/

theorem run_absent {id : String} : ∀ (evs : List BridgeEv) (s : ParentState),
    id ∉ pendingKeys s.pending → (∀ e ∈ evs, registersId id e = false) →
    settlesFor id (runEvs s evs).2 = 0 ∧ id ∉ pendingKeys (runEvs s evs).1.pending := by
  intro evs
  induction evs with
  | nil =>
      intro s hmem _
      exact ⟨rfl, hmem⟩
  | cons e evs ih =>
      intro s hmem hreg
      have h1 := step_absent hmem (hreg e (by simp))
      have h2 := ih (stepEv s e).1 h1.2 (fun x hx => hreg x (by simp [hx]))
      simp only [runEvs, settlesFor_append, h1.1, h2.1, Nat.add_zero]
      exact ⟨trivial, h2.2⟩

theorem run_present_cases {id : String} : ∀ (evs : List BridgeEv) (s : ParentState),
    wfParent s → id ∈ pendingKeys s.pending → (∀ e ∈ evs, registersId id e = false) →
    (settlesFor id (runEvs s evs).2 = 0 ∧ id ∈ pendingKeys (runEvs s evs).1.pending)
    ∨ (settlesFor id (runEvs s evs).2 = 1 ∧ id ∉ pendingKeys (runEvs s evs).1.pending) := by
  intro evs
  induction evs with
  | nil =>
      intro s _ hmem _
      exact Or.inl ⟨rfl, hmem⟩
  | cons e evs ih =>
      intro s hwf hmem hreg
      rcases step_present hwf hmem (hreg e (by simp)) with h1 | h1
      · have h2 := run_absent evs (stepEv s e).1 h1.2
          (fun x hx => hreg x (by simp [hx]))
        refine Or.inr ?_
        simp only [runEvs, settlesFor_append, h1.1, h2.1, Nat.add_zero]
        exact ⟨trivial, h2.2⟩
      · have h2 := ih (stepEv s e).1 (step_wf e hwf) h1.2.1
          (fun x hx => hreg x (by simp [hx]))
        simp only [runEvs, settlesFor_append, h1.1, Nat.zero_add]
        exact h2

theorem run_present_targeted {id : String} : ∀ (evs : List BridgeEv) (s : ParentState),
    wfParent s → id ∈ pendingKeys s.pending → (∀ e ∈ evs, registersId id e = false) →
    (∃ e ∈ evs, targetsId id e = true) →
    settlesFor id (runEvs s evs).2 = 1 := by
  intro evs
  induction evs with
  | nil =>
      intro s _ _ _ htgt
      simp at htgt
  | cons e evs ih =>
      intro s hwf hmem hreg htgt
      rcases step_present hwf hmem (hreg e (by simp)) with h1 | h1
      · have h2 := run_absent evs (stepEv s e).1 h1.2
          (fun x hx => hreg x (by simp [hx]))
        simp only [runEvs, settlesFor_append, h1.1, h2.1, Nat.add_zero]
      · rcases htgt with ⟨e', he', htg⟩
        rcases List.mem_cons.mp he' with rfl | he'
        · rw [h1.2.2] at htg
          exact absurd htg (by simp)
        · have h2 := ih (stepEv s e).1 (step_wf e hwf) h1.2.1
            (fun x hx => hreg x (by simp [hx])) ⟨e', he', htg⟩
          simp only [runEvs, settlesFor_append, h1.1, Nat.zero_add]
          exact h2

/-! ## Claim theorems -/

/-- Claim C1: every pending call registered by `call()` is settled exactly
once.  Over any event trace (responses, timeout firings, new calls with
fresh ids, `destroy()`), a call pending in a well-formed bridge state is
settled at most once; if the trace contains a response with its `requestId`,
the firing of its timeout, or a `destroy()`, it is settled exactly once; a
settlement removes the entry from the pending map so no later event can
settle it again.  A response whose `requestId` has no pending entry is a
no-op that settles nothing, and every settling response path removes the
entry and clears its timer. -/
theorem c1_pending_call_settled_exactly_once :
    (∀ (s : ParentState) (id : String) (evs : List BridgeEv),
        wfParent s → id ∈ pendingKeys s.pending →
        (∀ e ∈ evs, registersId id e = false) →
        settlesFor id (runEvs s evs).2 ≤ 1
        ∧ ((∃ e ∈ evs, targetsId id e = true) → settlesFor id (runEvs s evs).2 = 1)
        ∧ (settlesFor id (runEvs s evs).2 = 1 →
            id ∉ pendingKeys (runEvs s evs).1.pending))
    ∧ (∀ (s : ParentState) (m : WireMsg) (r : String),
        responseReqId m = some r → r ∉ pendingKeys s.pending →
        parentHandleResponse s m = (s, []))
    ∧ (∀ (s : ParentState) (m : WireMsg) (r : String) (e : PendingEntry),
        responseReqId m = some r → lookupPending s.pending r = some e →
        r ∉ pendingKeys (parentHandleResponse s m).1.pending
        ∧ e.timerId ∉ (parentHandleResponse s m).1.armedTimers) := by
  refine ⟨?_, ?_, ?_⟩
  · intro s id evs hwf hmem hreg
    rcases run_present_cases evs s hwf hmem hreg with h | h
    · refine ⟨by omega, fun htgt => run_present_targeted evs s hwf hmem hreg htgt, ?_⟩
      intro h1
      rw [h.1] at h1
      exact absurd h1 (by omega)
    · exact ⟨by omega, fun _ => h.1, fun _ => h.2⟩
  · intro s m r hr hmiss
    exact handleResponse_no_entry hr (lookup_none_of_not_mem hmiss)
  · intro s m r e hr hhit
    obtain ⟨o, heq⟩ := handleResponse_hit hr hhit
    rw [heq]
    constructor
    · intro hc
      exact (mem_keys_delete.mp hc).2 rfl
    · intro hc
      simp only [List.mem_filter] at hc
      simpa using hc.2

/-- Witness for C1 at a concrete state: call `"a"` is pending in
`exampleParent`; the trace fires its timeout and then delivers a late
response — the call settles exactly once. -/
theorem c1_witness :
    settlesFor "a"
      (runEvs exampleParent
        [BridgeEv.timerFire "a",
         BridgeEv.response (WireMsg.responseOk "x" "a" "late")]).2 = 1 :=
  (c1_pending_call_settled_exactly_once.1 exampleParent "a"
      [BridgeEv.timerFire "a", BridgeEv.response (WireMsg.responseOk "x" "a" "late")]
      (by decide) (by decide) (by decide)).2.1
    ⟨BridgeEv.timerFire "a", by decide, by decide⟩

theorem sendsIn_map_settle (m : PendingMap) (f : String × PendingEntry → Outcome) :
    sendsIn (m.map (fun kv => Effect.settle kv.1 (f kv))) = 0 := by
  induction m with
  | nil => rfl
  | cons kv rest ih => simpa [sendsIn, List.filter] using ih

/-- Counterexample for C2 as stated: `destroy()` does not clear every armed
timer.  In `connectingParent` the handshake-attempt timeout timer (id 0) is
armed; `destroy()` ends in `destroyed` but leaves that timer armed, because
`destroy` only clears the timers stored in the pending map and the
`attemptHandshake` timeout handle is not among them. -/
theorem c2_counterexample :
    connectingParent.state = ConnState.connecting
    ∧ connectingParent.armedTimers = [0]
    ∧ (parentDestroy connectingParent).1.state = ConnState.destroyed
    ∧ (parentDestroy connectingParent).1.armedTimers = [0] := by
  refine ⟨by decide, by decide, by decide, by decide⟩

/-- Claim C2 (amended): `destroy()` never throws (it is total), is legal and
idempotent from every state, and synchronously sets the state to
`destroyed`, clears every pending call's armed timer — though not an armed
handshake-attempt timeout timer — rejects every pending call with
`DESTROYED`, and empties the pending map, sending no message.  Afterwards
`call()` rejects immediately with `NOT_CONNECTED` and `connect()` with
`DESTROYED`, neither sending anything nor changing state, and a second
`destroy()` changes nothing.  The same holds for the child bridge. -/
theorem c2_destroy_contract :
    (∀ (s : ParentState), wfParent s →
       (s.state = ConnState.destroyed → parentDestroy s = (s, []))
       ∧ parentDestroy (parentDestroy s).1 = ((parentDestroy s).1, [])
       ∧ (parentDestroy s).1.state = ConnState.destroyed
       ∧ (parentDestroy s).1.pending = []
       ∧ (parentDestroy s).2 =
           s.pending.map (fun kv => Effect.settle kv.1 (Outcome.rejected BridgeError.destroyedErr))
       ∧ (∀ kv ∈ s.pending, kv.2.timerId ∉ (parentDestroy s).1.armedTimers)
       ∧ sendsIn (parentDestroy s).2 = 0
       ∧ (∀ id method payload t now,
            parentCall (parentDestroy s).1 id method payload t now =
              ((parentDestroy s).1, [], CallResult.rejectedNotConnected))
       ∧ parentConnect (parentDestroy s).1 =
           ((parentDestroy s).1, [], ConnectOutcome.rejectedDestroyed))
    ∧ (∀ (c : ChildState), wfChild c →
       (c.state = ConnState.destroyed → childDestroy c = (c, []))
       ∧ childDestroy (childDestroy c).1 = ((childDestroy c).1, [])
       ∧ (childDestroy c).1.state = ConnState.destroyed
       ∧ (childDestroy c).1.pending = []
       ∧ (childDestroy c).2 =
           c.pending.map (fun kv => Effect.settle kv.1 (Outcome.rejected BridgeError.destroyedErr))
       ∧ (∀ kv ∈ c.pending, kv.2.timerId ∉ (childDestroy c).1.armedTimers)
       ∧ sendsIn (childDestroy c).2 = 0
       ∧ (∀ id method payload t now,
            childCall (childDestroy c).1 id method payload t now =
              ((childDestroy c).1, [], CallResult.rejectedNotConnected))) := by
  constructor
  · intro s hwf
    by_cases hd : s.state = ConnState.destroyed
    · have hnil := hwf.2 hd
      have hde : parentDestroy s = (s, []) := by simp [parentDestroy, hd]
      rw [hde]
      refine ⟨fun _ => rfl, hde, hd, hnil, by rw [hnil]; rfl, ?_, rfl, ?_, ?_⟩
      · intro kv hkv
        rw [hnil] at hkv
        simp at hkv
      · intro id method payload t now
        simp [parentCall, hd]
      · simp [parentConnect, hd]
    · have hde : parentDestroy s =
          ({ s with
              pending := [],
              armedTimers := s.armedTimers.filter
                (fun t => ¬ (s.pending.map (fun kv => kv.2.timerId)).contains t),
              targetWindow := none,
              handshakeResolve := false,
              pendingHandshakeId := none,
              state := ConnState.destroyed },
           s.pending.map (fun kv => Effect.settle kv.1 (Outcome.rejected BridgeError.destroyedErr))) := by
        simp [parentDestroy, hd]
      rw [hde]
      refine ⟨fun h => absurd h hd, by simp [parentDestroy], rfl, rfl, rfl, ?_,
        sendsIn_map_settle s.pending _, ?_, ?_⟩
      · intro kv hkv hmem
        simp only [List.mem_filter] at hmem
        simp at hmem
        exact hmem.2 kv.1 kv.2 hkv rfl
      · intro id method payload t now
        simp [parentCall]
      · simp [parentConnect]
  · intro c hwf
    by_cases hd : c.state = ConnState.destroyed
    · have hnil := hwf.2 hd
      have hde : childDestroy c = (c, []) := by simp [childDestroy, hd]
      rw [hde]
      refine ⟨fun _ => rfl, hde, hd, hnil, by rw [hnil]; rfl, ?_, rfl, ?_⟩
      · intro kv hkv
        rw [hnil] at hkv
        simp at hkv
      · intro id method payload t now
        simp [childCall, hd]
    · have hde : childDestroy c =
          ({ c with
              pending := [],
              armedTimers := c.armedTimers.filter
                (fun t => ¬ (c.pending.map (fun kv => kv.2.timerId)).contains t),
              parentOrigin := none,
              state := ConnState.destroyed },
           c.pending.map (fun kv => Effect.settle kv.1 (Outcome.rejected BridgeError.destroyedErr))) := by
        simp [childDestroy, hd]
      rw [hde]
      refine ⟨fun h => absurd h hd, by simp [childDestroy], rfl, rfl, rfl, ?_,
        sendsIn_map_settle c.pending _, ?_⟩
      · intro kv hkv hmem
        simp only [List.mem_filter] at hmem
        simp at hmem
        exact hmem.2 kv.1 kv.2 hkv rfl
      · intro id method payload t now
        simp [childCall]

/-- Witness for C2 (amended) at a concrete state: destroying the connected
parent with one pending call flips the state, empties the map, rejects the
call with `DESTROYED`, and a second destroy is a no-op. -/
theorem c2_witness :
    (parentDestroy exampleParent).1.state = ConnState.destroyed
    ∧ (parentDestroy exampleParent).1.pending = []
    ∧ (parentDestroy exampleParent).2 =
        [Effect.settle "a" (Outcome.rejected BridgeError.destroyedErr)]
    ∧ parentDestroy (parentDestroy exampleParent).1 = ((parentDestroy exampleParent).1, []) := by
  have h := c2_destroy_contract.1 exampleParent (by decide)
  exact ⟨h.2.2.1, h.2.2.2.1, h.2.2.2.2.1, h.2.1⟩

/-- Claim C4: `connect()` behaves per state — from `disconnected` it flips to
`connecting` (recording the target window) and starts the handshake; while
`connecting` it rejects as already in progress (a `HANDSHAKE_FAILED` error);
while `connected` it is a benign no-op success that sends nothing; after
destroy it rejects with `DESTROYED`, and once destroyed no operation except
`destroy()` succeeds: `call()` and `connect()` both reject immediately while
`destroy()` remains legal. -/
theorem c4_connect_per_state :
    ∀ (s : ParentState),
      (s.state = ConnState.disconnected →
        parentConnect s =
          ({ s with state := ConnState.connecting, targetWindow := some s.cfgTarget },
           [], ConnectOutcome.startedHandshake))
      ∧ (s.state = ConnState.connecting →
          parentConnect s = (s, [], ConnectOutcome.rejectedInProgress))
      ∧ (s.state = ConnState.connected →
          parentConnect s = (s, [], ConnectOutcome.alreadyConnected))
      ∧ (s.state = ConnState.destroyed →
          parentConnect s = (s, [], ConnectOutcome.rejectedDestroyed)
          ∧ (∀ id method payload t now,
              parentCall s id method payload t now = (s, [], CallResult.rejectedNotConnected))
          ∧ (parentDestroy s).1.state = ConnState.destroyed)
      ∧ connectInProgressErr.code = ErrCode.handshakeFailed := by
  intro s
  refine ⟨?_, ?_, ?_, ?_, rfl⟩
  · intro hd
    simp [parentConnect, hd]
  · intro hd
    simp [parentConnect, hd]
  · intro hd
    simp [parentConnect, hd]
  · intro hd
    refine ⟨by simp [parentConnect, hd], ?_, by simp [parentDestroy, hd]⟩
    intro id method payload t now
    simp [parentCall, hd]

/-- Witness for C4 at concrete states: a fresh bridge starts the handshake,
and a destroyed bridge rejects `connect()`. -/
theorem c4_witness :
    parentConnect initialParent =
      ({ initialParent with
          state := ConnState.connecting,
          targetWindow := some initialParent.cfgTarget },
       [], ConnectOutcome.startedHandshake)
    ∧ parentConnect { initialParent with state := ConnState.destroyed } =
        ({ initialParent with state := ConnState.destroyed },
         [], ConnectOutcome.rejectedDestroyed) :=
  ⟨(c4_connect_per_state initialParent).1 rfl,
   ((c4_connect_per_state { initialParent with state := ConnState.destroyed }).2.2.2.1 rfl).1⟩

/-- Claim C5: a `HandshakeAck` whose `requestId` differs from the
outstanding handshake attempt is ignored — the whole bridge state
(connection state, recorded remote methods, outstanding attempt) is left
unchanged and nothing is resolved; a matching ack records the counterpart's
advertised methods, consumes the outstanding id, and resolves the waiting
attempt exactly when one is waiting, letting `connect()` transition the
bridge to `connected`. -/
theorem c5_stale_ack_ignored :
    ∀ (s : ParentState) (requestId : String) (methods : List String),
      (some requestId ≠ s.pendingHandshakeId →
        parentHandleHandshakeAck s requestId methods = (s, false))
      ∧ (s.pendingHandshakeId = some requestId →
          (parentHandleHandshakeAck s requestId methods).1.remoteMethods = methods
          ∧ (parentHandleHandshakeAck s requestId methods).1.pendingHandshakeId = none
          ∧ (parentHandleHandshakeAck s requestId methods).2 = s.handshakeResolve
          ∧ (parentConnectFinish
              (parentHandleHandshakeAck s requestId methods).1).state = ConnState.connected) := by
  intro s requestId methods
  constructor
  · intro hne
    simp [parentHandleHandshakeAck, hne]
  · intro heq
    have hcond : ¬ (some requestId ≠ s.pendingHandshakeId) := by simp [heq]
    by_cases hr : s.handshakeResolve
    · simp [parentHandleHandshakeAck, hcond, hr, parentConnectFinish]
    · simp [parentHandleHandshakeAck, hcond, hr, parentConnectFinish]

/-- Witness for C5 at a concrete state: in `connectingParent` (outstanding
handshake id `"hs1"`) a stale ack is ignored wholesale and a matching ack
records the advertised methods. -/
theorem c5_witness :
    parentHandleHandshakeAck connectingParent "stale" ["m1"] = (connectingParent, false)
    ∧ (parentHandleHandshakeAck connectingParent "hs1" ["m1"]).1.remoteMethods = ["m1"] :=
  ⟨(c5_stale_ack_ignored connectingParent "stale" ["m1"]).1 (by decide),
   ((c5_stale_ack_ignored connectingParent "hs1" ["m1"]).2 (by decide)).1⟩

/-- Claim C6: the request router produces exactly one response for every
accepted request: `METHOD_NOT_FOUND` when no handler is registered, a
success response carrying the handler result when the handler completes,
and `HANDLER_ERROR` wrapping the cause when the handler throws — the
exception never escapes and the caller is never left without a response. -/
theorem c6_request_router_exactly_one_response :
    ∀ (handlers : Handlers) (reqId method payload newId : String),
      sendsIn (bridgeHandleRequest handlers reqId method payload newId) = 1
      ∧ (findHandler handlers method = none →
          bridgeHandleRequest handlers reqId method payload newId =
            [Effect.send (mkErrorResponse newId reqId (BridgeError.methodNotFoundErr method))]
          ∧ (BridgeError.methodNotFoundErr method).code = ErrCode.methodNotFound)
      ∧ (∀ h v, findHandler handlers method = some h → h payload = Except.ok v →
          bridgeHandleRequest handlers reqId method payload newId =
            [Effect.invoke method, Effect.send (mkSuccessResponse newId reqId v)])
      ∧ (∀ h cause, findHandler handlers method = some h → h payload = Except.error cause →
          bridgeHandleRequest handlers reqId method payload newId =
            [Effect.invoke method,
             Effect.send (mkErrorResponse newId reqId (BridgeError.handlerErrorErr method cause))]
          ∧ (BridgeError.handlerErrorErr method cause).code = ErrCode.handlerError) := by
  intro handlers reqId method payload newId
  refine ⟨?_, ?_, ?_, ?_⟩
  · cases hf : findHandler handlers method with
    | none => simp [bridgeHandleRequest, hf, sendsIn]
    | some h =>
        cases hp : h payload with
        | ok v => simp [bridgeHandleRequest, hf, hp, sendsIn]
        | error c => simp [bridgeHandleRequest, hf, hp, sendsIn]
  · intro hf
    exact ⟨by simp [bridgeHandleRequest, hf], rfl⟩
  · intro h v hf hp
    simp [bridgeHandleRequest, hf, hp]
  · intro h cause hf hp
    exact ⟨by simp [bridgeHandleRequest, hf, hp], rfl⟩

/-- Witness for C6 at a concrete handler table: a missing method, a
completing handler, and a throwing handler each produce exactly one
response of the right shape. -/
theorem c6_witness :
    bridgeHandleRequest exampleHandlers "r1" "missing" "p" "n1" =
      [Effect.send (mkErrorResponse "n1" "r1" (BridgeError.methodNotFoundErr "missing"))]
    ∧ bridgeHandleRequest exampleHandlers "r2" "echo" "p" "n2" =
        [Effect.invoke "echo", Effect.send (mkSuccessResponse "n2" "r2" "p")]
    ∧ bridgeHandleRequest exampleHandlers "r3" "boom" "p" "n3" =
        [Effect.invoke "boom",
         Effect.send (mkErrorResponse "n3" "r3" (BridgeError.handlerErrorErr "boom" "kaboom"))] :=
  ⟨((c6_request_router_exactly_one_response exampleHandlers "r1" "missing" "p" "n1").2.1
      (by rfl)).1,
   (c6_request_router_exactly_one_response exampleHandlers "r2" "echo" "p" "n2").2.2.1
      _ "p" (by rfl) (by rfl),
   ((c6_request_router_exactly_one_response exampleHandlers "r3" "boom" "p" "n3").2.2.2
      _ "kaboom" (by rfl) (by rfl)).1⟩

/-- Claim C7: an inbound message whose sender origin is outside the
allow-set, or whose source window is not the recorded counterpart window,
is dropped by both bridges with no state change, no handler invocation, and
no reply; the drop path is a total function (it never throws). -/
theorem c7_untrusted_message_dropped :
    (∀ (s : ParentState) (ev : InEvent) (newId : String),
       isValidOrigin s.allowedOrigins ev.origin = false ∨ some ev.source ≠ s.targetWindow →
       parentHandleMessage s ev newId = (s, []))
    ∧ (∀ (c : ChildState) (ev : InEvent) (newId : String),
       isValidOrigin c.allowedOrigins ev.origin = false ∨ ev.source ≠ c.parentWindow →
       childHandleMessage c ev newId = (c, [])) := by
  constructor
  · intro s ev newId hgate
    rcases hgate with hbad | hbad
    · simp [parentHandleMessage, hbad]
    · by_cases hor : isValidOrigin s.allowedOrigins ev.origin
      · simp [parentHandleMessage, hor, hbad]
      · simp [parentHandleMessage, hor]
  · intro c ev newId hgate
    rcases hgate with hbad | hbad
    · simp [childHandleMessage, hbad]
    · by_cases hor : isValidOrigin c.allowedOrigins ev.origin
      · simp [childHandleMessage, hor, hbad]
      · simp [childHandleMessage, hor]

/-- Witness for C7 at concrete events: a wrong-origin request to the parent
and a wrong-source request to the child are both dropped wholesale. -/
theorem c7_witness :
    parentHandleMessage exampleParent
      ⟨"https://evil.example.com", 7, WireMsg.request "r" "m" "p"⟩ "n" = (exampleParent, [])
    ∧ childHandleMessage exampleChild
        ⟨"https://parent.example.com", 99, WireMsg.request "r" "m" "p"⟩ "n" =
        (exampleChild, []) :=
  ⟨c7_untrusted_message_dropped.1 exampleParent
      ⟨"https://evil.example.com", 7, WireMsg.request "r" "m" "p"⟩ "n" (Or.inl (by decide)),
   c7_untrusted_message_dropped.2 exampleChild
      ⟨"https://parent.example.com", 99, WireMsg.request "r" "m" "p"⟩ "n" (Or.inr (by decide))⟩

theorem mapErrorCode_codeStr (c : ErrCode) : mapErrorCode c.codeStr = c := by
  cases c <;> rfl

theorem rematerialize_toJSON (e : BridgeError) : rematerializeError e.toJSON = e := by
  cases e with
  | mk c msg det => simp [rematerializeError, BridgeError.toJSON, mapErrorCode_codeStr]

/-- Claim C8: an error the responder reports is serialized into the
response's `error` field as `{code, message, details?}` (`toJSON`) and
rematerialized on the caller side as a structured error with the same code,
the same message and the same optional details: delivering the responder's
error response for a pending call rejects it with exactly the original
structured error. -/
theorem c8_error_roundtrip :
    ∀ (e : BridgeError) (s : ParentState) (newId requestId : String) (entry : PendingEntry),
      lookupPending s.pending requestId = some entry →
      parentHandleResponse s (mkErrorResponse newId requestId e) =
        ({ s with
            pending := deletePending s.pending requestId,
            armedTimers := s.armedTimers.filter (fun t => t ≠ entry.timerId) },
         [Effect.settle requestId (Outcome.rejected e)])
      ∧ rematerializeError e.toJSON = e := by
  intro e s newId requestId entry hhit
  refine ⟨?_, rematerialize_toJSON e⟩
  simp [parentHandleResponse, mkErrorResponse, hhit, rematerialize_toJSON]

/-- Witness for C8 at a concrete error (with details): the rejection carries
the identical code, message and details. -/
theorem c8_witness :
    (parentHandleResponse exampleParent
        (mkErrorResponse "x" "a" ⟨ErrCode.handlerError, "boom", some "det"⟩)).2 =
      [Effect.settle "a"
        (Outcome.rejected ⟨ErrCode.handlerError, "boom", some "det"⟩)] := by
  have h := c8_error_roundtrip ⟨ErrCode.handlerError, "boom", some "det"⟩ exampleParent
    "x" "a" ⟨1, "m", 5, 0⟩ (by rfl)
  rw [h.1]

/-- Claim C10: a child bridge that has not been connected by any
`HandshakeRequest` drops every inbound `Request` or `Response` before
dispatch — even from an allowed origin and the correct parent window — with
no handler invoked, no state change, and no response of any kind sent back. -/
theorem c10_child_drops_preconnect_traffic :
    ∀ (c : ChildState) (ev : InEvent) (newId : String),
      c.state ≠ ConnState.connected →
      ((∃ id method payload, ev.data = WireMsg.request id method payload)
        ∨ (∃ r, responseReqId ev.data = some r)) →
      childHandleMessage c ev newId = (c, []) := by
  intro c ev newId hstate hkind
  by_cases hor : isValidOrigin c.allowedOrigins ev.origin
  · by_cases hsrc : ev.source = c.parentWindow
    · rcases hkind with ⟨id, method, payload, hd⟩ | ⟨r, hd⟩
      · simp [childHandleMessage, hor, hsrc, hd, hstate]
      · cases hdata : ev.data with
        | responseOk i rq d => simp [childHandleMessage, hor, hsrc, hdata, hstate]
        | responseErr i rq w => simp [childHandleMessage, hor, hsrc, hdata, hstate]
        | request i me p => simp [childHandleMessage, hor, hsrc, hdata, hstate]
        | handshakeReq i ms => rw [hdata] at hd; simp [responseReqId] at hd
        | handshakeAck i rq ms => simp [childHandleMessage, hor, hsrc, hdata, hstate]
        | other => simp [childHandleMessage, hor, hsrc, hdata, hstate]
    · simp [childHandleMessage, hor, hsrc]
  · simp [childHandleMessage, hor]

/-- Witness for C10: a well-formed request from the right origin and the
parent window, delivered before any handshake, is dropped. -/
theorem c10_witness :
    childHandleMessage disconnectedChild
      ⟨"https://parent.example.com", 3, WireMsg.request "r" "add" "p"⟩ "n" =
      (disconnectedChild, []) :=
  c10_child_drops_preconnect_traffic disconnectedChild
    ⟨"https://parent.example.com", 3, WireMsg.request "r" "add" "p"⟩ "n"
    (by decide) (Or.inl ⟨"r", "add", "p", rfl⟩)

end IframeRpc


namespace IframeRpc.Retry

theorem retryLoop_all_fail (outcome : Nat → Except RpcErr String)
    (isRetryable : RpcErr → Bool) (rd rb mrd : Nat)
    (hfail : ∀ k, ∃ e, outcome k = Except.error e ∧ isRetryable e = true) :
    ∀ (r a : Nat),
      retryLoop outcome isRetryable rd rb mrd (fun _ => false) a r =
        ⟨outcome (a + r), r + 1,
         (List.range r).map (fun i => calculateRetryDelay rd rb mrd (a + i))⟩ := by
  intro r
  induction r with
  | zero =>
      intro a
      obtain ⟨e, he, _⟩ := hfail a
      simp [retryLoop, he]
  | succ n ih =>
      intro a
      obtain ⟨e, he, hr⟩ := hfail a
      rw [retryLoop]
      simp only [he, hr, if_true, if_false, Bool.false_eq_true, ih (a + 1)]
      congr 1
      · rw [show a + 1 + n = a + (n + 1) from by omega]
      · rw [List.range_succ_eq_map]
        simp only [List.map_cons, List.map_map, Nat.add_zero, Function.comp]
        congr 1
        refine List.map_congr_left ?_
        intro i _
        rw [show a + 1 + i = a + (i + 1) from by omega]
        rfl

theorem callMethod_single_attempt (mr : Int) (rd rb mrd : Nat)
    (isRetryable : RpcErr → Bool) (dw : Nat → Bool)
    (outcome : Nat → Except RpcErr String) (hmr : mr ≤ 0) :
    (callMethod false mr rd rb mrd isRetryable dw outcome).sends = 1
    ∧ (callMethod false mr rd rb mrd isRetryable dw outcome).delays = []
    ∧ (callMethod false mr rd rb mrd isRetryable dw outcome).result = outcome 0 := by
  cases ho : outcome 0 with
  | ok v => simp [callMethod, hmr, ho]
  | error e => simp [callMethod, hmr, ho]

theorem callMethod_nonretryable (mr : Int) (rd rb mrd : Nat)
    (isRetryable : RpcErr → Bool) (outcome : Nat → Except RpcErr String) (e : RpcErr)
    (ho : outcome 0 = Except.error e) (hnr : isRetryable e = false) :
    (callMethod false mr rd rb mrd isRetryable (fun _ => false) outcome).result = Except.error e
    ∧ (callMethod false mr rd rb mrd isRetryable (fun _ => false) outcome).sends = 1 := by
  by_cases hmr : mr ≤ 0
  · simp [callMethod, hmr, ho]
  · obtain ⟨k, hk⟩ : ∃ k, mr.toNat = k + 1 := ⟨mr.toNat - 1, by omega⟩
    simp only [callMethod, hmr, if_false, Bool.false_eq_true]
    rw [hk, retryLoop]
    simp [ho, hnr]

/-- Claim C3: the retrying call path uses zero-based attempt indices; the
spec's `maxAttempts` counts total attempts while the code's `maxRetries`
parameter counts extra attempts, so `maxRetries = maxAttempts - 1` (the loop
runs attempts `0 .. maxRetries`).  `maxAttempts = 0` and `maxAttempts = 1`
both mean exactly one attempt and no retries; with `maxAttempts = 3`, the
default timeout-only retry predicate and a responder that never replies,
exactly 3 request messages are sent, the delay slept before zero-based
reattempt `k` is `min(baseDelay * backoffMultiplier ^ k, maxDelay)`, and the
final outcome is the `TIMEOUT` error; a non-retryable error (default
predicate: anything that is not a timeout error) is propagated immediately,
and when every attempt fails retryably the last attempt's failure is the
final result. -/
theorem c3_retry_attempt_semantics :
    ∀ (maxAttempts : Int) (rd rb mrd : Nat) (outcome : Nat → Except RpcErr String)
      (isRetryable : RpcErr → Bool) (method : String) (ms : Nat) (e : RpcErr),
      ((maxAttempts = 0 ∨ maxAttempts = 1) →
        (callMethod false (maxAttempts - 1) rd rb mrd isRetryable
            (fun _ => false) outcome).sends = 1
        ∧ (callMethod false (maxAttempts - 1) rd rb mrd isRetryable
            (fun _ => false) outcome).delays = [])
      ∧ ((callMethod false ((3 : Int) - 1) rd rb mrd defaultIsRetryable (fun _ => false)
            (fun _ => Except.error (RpcErr.timeout method ms))).sends = 3
         ∧ (callMethod false ((3 : Int) - 1) rd rb mrd defaultIsRetryable (fun _ => false)
              (fun _ => Except.error (RpcErr.timeout method ms))).delays =
            [min (rd * rb ^ 0) mrd, min (rd * rb ^ 1) mrd]
         ∧ (callMethod false ((3 : Int) - 1) rd rb mrd defaultIsRetryable (fun _ => false)
              (fun _ => Except.error (RpcErr.timeout method ms))).result =
            Except.error (RpcErr.timeout method ms))
      ∧ (outcome 0 = Except.error e → isRetryable e = false →
          (callMethod false (maxAttempts - 1) rd rb mrd isRetryable
              (fun _ => false) outcome).result = Except.error e)
      ∧ (∀ msg code, defaultIsRetryable (RpcErr.rpc msg code) = false)
      ∧ (0 < maxAttempts - 1 →
          (∀ k, ∃ e2, outcome k = Except.error e2 ∧ isRetryable e2 = true) →
          (callMethod false (maxAttempts - 1) rd rb mrd isRetryable
              (fun _ => false) outcome).result = outcome (maxAttempts - 1).toNat) := by
  intro maxAttempts rd rb mrd outcome isRetryable method ms e
  refine ⟨?_, ?_, ?_, fun _ _ => rfl, ?_⟩
  · intro hma
    have hle : maxAttempts - 1 ≤ 0 := by omega
    have h := callMethod_single_attempt (maxAttempts - 1) rd rb mrd isRetryable
      (fun _ => false) outcome hle
    exact ⟨h.1, h.2.1⟩
  · have hfail : ∀ k, ∃ e2, (fun _ => Except.error (RpcErr.timeout method ms) :
        Nat → Except RpcErr String) k = Except.error e2 ∧ defaultIsRetryable e2 = true :=
      fun _ => ⟨RpcErr.timeout method ms, rfl, rfl⟩
    have h := retryLoop_all_fail (fun _ => Except.error (RpcErr.timeout method ms))
      defaultIsRetryable rd rb mrd hfail 2 0
    have hcm : callMethod false ((3 : Int) - 1) rd rb mrd defaultIsRetryable (fun _ => false)
        (fun _ => Except.error (RpcErr.timeout method ms)) =
        retryLoop (fun _ => Except.error (RpcErr.timeout method ms)) defaultIsRetryable
          rd rb mrd (fun _ => false) 0 2 := by
      norm_num [callMethod]
      rfl
    rw [hcm, h]
    refine ⟨rfl, ?_, rfl⟩
    show List.map _ (List.range 2) = _
    rw [show List.range 2 = [0, 1] from rfl]
    rfl
  · intro ho hnr
    exact (callMethod_nonretryable (maxAttempts - 1) rd rb mrd isRetryable outcome e ho hnr).1
  · intro hpos hfail
    have h := retryLoop_all_fail outcome isRetryable rd rb mrd hfail (maxAttempts - 1).toNat 0
    have hcm : callMethod false (maxAttempts - 1) rd rb mrd isRetryable (fun _ => false)
        outcome =
        retryLoop outcome isRetryable rd rb mrd (fun _ => false) 0 (maxAttempts - 1).toNat := by
      simp only [callMethod, Bool.false_eq_true, if_false]
      rw [if_neg (by omega)]
    rw [hcm, h]
    show outcome (0 + (maxAttempts - 1).toNat) = _
    rw [Nat.zero_add]

/-- Witness for C3 at the default retry configuration (`baseDelay = 1000`,
`backoff = 2`, `maxDelay = 30000`): three attempts against a silent
responder send 3 requests with delays 1000 and 2000 and end in the timeout
error, while `maxAttempts = 1` performs a single attempt. -/
theorem c3_witness :
    (callMethod false ((3 : Int) - 1) 1000 2 30000 defaultIsRetryable (fun _ => false)
        (fun _ => Except.error (RpcErr.timeout "m" 50))).sends = 3
    ∧ (callMethod false ((3 : Int) - 1) 1000 2 30000 defaultIsRetryable (fun _ => false)
        (fun _ => Except.error (RpcErr.timeout "m" 50))).delays = [1000, 2000]
    ∧ (callMethod false ((1 : Int) - 1) 1000 2 30000 defaultIsRetryable (fun _ => false)
        (fun _ => Except.error (RpcErr.timeout "m" 50))).sends = 1 := by
  have h := c3_retry_attempt_semantics 1 1000 2 30000
    (fun _ => Except.error (RpcErr.timeout "m" 50)) defaultIsRetryable "m" 50
    (RpcErr.timeout "m" 50)
  refine ⟨h.2.1.1, ?_, (h.1 (Or.inr rfl)).1⟩
  rw [h.2.1.2.1]
  rfl

end IframeRpc.Retry

namespace IframeRpc.Correlation

theorem fromDigits36_digits36Aux : ∀ (fuel n : Nat), n ≤ fuel →
    fromDigits36 (digits36Aux fuel n) = n := by
  intro fuel
  induction fuel with
  | zero =>
      intro n hn
      have : n = 0 := by omega
      subst this
      rfl
  | succ f ih =>
      intro n hn
      cases n with
      | zero => rfl
      | succ m =>
          rw [digits36Aux, fromDigits36, ih ((m + 1) / 36) (by omega)]
          exact Nat.mod_add_div (m + 1) 36

theorem digits36_fromDigits (n : Nat) : fromDigits36 (digits36 n) = n :=
  fromDigits36_digits36Aux n n le_rfl

theorem digits36_inj {m n : Nat} (h : digits36 m = digits36 n) : m = n := by
  have h2 := congrArg fromDigits36 h
  rwa [digits36_fromDigits, digits36_fromDigits] at h2

theorem digits36Aux_lt : ∀ (fuel n : Nat), ∀ d ∈ digits36Aux fuel n, d < 36 := by
  intro fuel
  induction fuel with
  | zero =>
      intro n d hd
      cases n <;> simp [digits36Aux] at hd
  | succ f ih =>
      intro n d hd
      cases n with
      | zero => simp [digits36Aux] at hd
      | succ m =>
          rw [digits36Aux] at hd
          rcases List.mem_cons.mp hd with rfl | hd
          · exact Nat.mod_lt _ (by omega)
          · exact ih _ d hd

theorem base36DigitChar_inj :
    ∀ d1, d1 < 36 → ∀ d2, d2 < 36 →
      base36DigitChar d1 = base36DigitChar d2 → d1 = d2 := by
  decide

theorem base36DigitChar_ne_dash : ∀ d, d < 36 → base36DigitChar d ≠ '-' := by
  decide

theorem map_base36_inj : ∀ (l1 l2 : List Nat), (∀ d ∈ l1, d < 36) → (∀ d ∈ l2, d < 36) →
    l1.map base36DigitChar = l2.map base36DigitChar → l1 = l2 := by
  intro l1
  induction l1 with
  | nil =>
      intro l2 _ _ h
      cases l2 with
      | nil => rfl
      | cons d2 ds2 => simp at h
  | cons d ds ih =>
      intro l2 h1 h2 h
      cases l2 with
      | nil => simp at h
      | cons d2 ds2 =>
          simp only [List.map_cons, List.cons.injEq] at h
          have hd := base36DigitChar_inj d (h1 d (by simp)) d2 (h2 d2 (by simp)) h.1
          rw [hd, ih ds2 (fun x hx => h1 x (by simp [hx]))
            (fun x hx => h2 x (by simp [hx])) h.2]

theorem toBase36_eq_zero {n : Nat} (h : toBase36 n = "0") : n = 0 := by
  by_cases hn : n = 0
  · exact hn
  · exfalso
    simp only [toBase36, if_neg hn] at h
    have hdata := congrArg String.data h
    have hmap : (digits36 n).map base36DigitChar = ['0'] := by
      have h2 := congrArg List.reverse hdata
      simp at h2
      exact h2
    have hdig : digits36 n = [0] := by
      refine map_base36_inj _ [0] (digits36Aux_lt n n) ?_ ?_
      · intro d hd
        simp at hd
        omega
      · simpa using hmap
    have h0 := digits36_fromDigits n
    rw [hdig] at h0
    simp [fromDigits36] at h0
    exact hn h0.symm

theorem toBase36_inj {m n : Nat} (h : toBase36 m = toBase36 n) : m = n := by
  by_cases hm : m = 0 <;> by_cases hn : n = 0
  · omega
  · subst hm
    have h0 : toBase36 n = "0" := by rw [← h]; rfl
    exact absurd (toBase36_eq_zero h0) hn
  · subst hn
    have h0 : toBase36 m = "0" := by rw [h]; rfl
    exact absurd (toBase36_eq_zero h0) hm
  · simp only [toBase36, if_neg hm, if_neg hn] at h
    have hdata := congrArg String.data h
    have hrev : ((digits36 m).map base36DigitChar).reverse =
        ((digits36 n).map base36DigitChar).reverse := by simpa using hdata
    have hmap := List.reverse_injective hrev
    exact digits36_inj (map_base36_inj _ _ (digits36Aux_lt m m) (digits36Aux_lt n n) hmap)

theorem dash_not_mem_toBase36 (n : Nat) : '-' ∉ (toBase36 n).data := by
  by_cases hn : n = 0
  · subst hn
    decide
  · simp only [toBase36, if_neg hn]
    intro hd
    have hd2 : '-' ∈ ((digits36 n).map base36DigitChar).reverse := hd
    rw [List.mem_reverse] at hd2
    obtain ⟨d, hdmem, hdc⟩ := List.mem_map.mp hd2
    exact base36DigitChar_ne_dash d (digits36Aux_lt n n d hdmem) hdc

theorem append_dash_inj : ∀ {s1 : List Char} (s2 : List Char) {t1 t2 : List Char},
    '-' ∉ s1 → '-' ∉ s2 → s1 ++ '-' :: t1 = s2 ++ '-' :: t2 → s1 = s2 ∧ t1 = t2 := by
  intro s1
  induction s1 with
  | nil =>
      intro s2 t1 t2 _ h2 heq
      cases s2 with
      | nil => simpa using heq
      | cons c cs =>
          simp only [List.nil_append, List.cons_append, List.cons.injEq] at heq
          exact absurd (heq.1 ▸ List.mem_cons_self c cs) h2
  | cons c cs ih =>
      intro s2 t1 t2 h1 h2 heq
      cases s2 with
      | nil =>
          simp only [List.cons_append, List.nil_append, List.cons.injEq] at heq
          exact absurd (heq.1 ▸ List.mem_cons_self c cs) (by simp [heq.1] at h1 ⊢)
      | cons c2 cs2 =>
          simp only [List.cons_append, List.cons.injEq] at heq
          have hih := ih cs2 (fun hx => h1 (List.mem_cons_of_mem c hx))
            (fun hx => h2 (List.mem_cons_of_mem c2 hx)) heq.2
          exact ⟨by rw [heq.1, hih.1], hih.2⟩

theorem idString_data (t k : Nat) :
    (idString t k).data = (toBase36 t).data ++ '-' :: (toBase36 k).data := by
  simp [idString, String.data_append]

theorem idString_inj {t1 k1 t2 k2 : Nat} (h : idString t1 k1 = idString t2 k2) :
    t1 = t2 ∧ k1 = k2 := by
  have hdata := congrArg String.data h
  rw [idString_data, idString_data] at hdata
  have hsplit := append_dash_inj (toBase36 t2).data
    (dash_not_mem_toBase36 t1) (dash_not_mem_toBase36 t2) hdata
  exact ⟨toBase36_inj (String.ext hsplit.1), toBase36_inj (String.ext hsplit.2)⟩

theorem mintMany_mem : ∀ (ts : List Nat) (c : Nat) (s : String),
    s ∈ mintMany ts c → ∃ t k, s = idString t k ∧ c < k := by
  intro ts
  induction ts with
  | nil =>
      intro c s hs
      simp [mintMany] at hs
  | cons t ts ih =>
      intro c s hs
      rw [mintMany] at hs
      rcases List.mem_cons.mp hs with rfl | hs
      · exact ⟨t, c + 1, rfl, by omega⟩
      · obtain ⟨t2, k, hsk, hk⟩ := ih (c + 1) s hs
        exact ⟨t2, k, hsk, by omega⟩

end IframeRpc.Correlation

namespace IframeRpc.Correlation

/-- Counterexample for C9 as stated: the counter behind
`generateCorrelationId` is module-scoped shared state, so the id a bridge
instance mints is not independent of how many ids another instance has
generated.  At a fixed timestamp, the first id instance A mints differs
according to whether instance B minted 0 ids (shared counter 0) or 1 id
(shared counter 1) beforehand. -/
theorem c9_counterexample :
    (generateCorrelationId 1000 0).1 ≠ (generateCorrelationId 1000 1).1 := by
  decide

/-- Claim C9 (amended): correlation ids are minted from a module-scoped
monotonic counter shared by every bridge instance in the realm (combined
with the current timestamp), not an instance-owned source.  Along any
realm-wide sequence of mints the counter strictly increases, and the minted
ids are locally unique and never reused — two mints with distinct counter
values always produce distinct ids, at any timestamps — but the id one
instance mints depends on how many ids the other instances have generated
(the counterexample). -/
theorem c9_ids_unique_never_reused :
    ∀ (ts : List Nat) (c : Nat),
      (mintMany ts c).Nodup
      ∧ (∀ t c2, (generateCorrelationId t c2).2 = c2 + 1)
      ∧ (∀ t1 t2 k1 k2, k1 ≠ k2 →
          (generateCorrelationId t1 k1).1 ≠ (generateCorrelationId t2 k2).1) := by
  intro ts
  have hnodup : ∀ (ts2 : List Nat) (c : Nat), (mintMany ts2 c).Nodup := by
    intro ts2
    induction ts2 with
    | nil =>
        intro c
        simp [mintMany]
    | cons t rest ih =>
        intro c
        rw [mintMany]
        refine List.nodup_cons.mpr ⟨?_, ih (c + 1)⟩
        intro hmem
        obtain ⟨t2, k, heq, hk⟩ := mintMany_mem rest (c + 1) _ hmem
        have heq2 : idString t (c + 1) = idString t2 k := heq
        have hinj := idString_inj heq2
        omega
  intro c
  refine ⟨hnodup ts c, fun t c2 => rfl, ?_⟩
  intro t1 t2 k1 k2 hne heq
  have heq2 : idString t1 (k1 + 1) = idString t2 (k2 + 1) := heq
  have hinj := idString_inj heq2
  omega

/-- Witness for C9 (amended) at concrete inputs: two mints at the same
timestamp with distinct shared-counter values give distinct ids. -/
theorem c9_witness :
    (generateCorrelationId 5 3).1 ≠ (generateCorrelationId 5 4).1 :=
  (c9_ids_unique_never_reused [] 0).2.2 5 5 3 4 (by decide)

end IframeRpc.Correlation
